import Mathlib

/-!
Shallow embedding of the spread-capture trading bot's execution and risk
engine (quote planner, order reconciler, position manager, PnL ledger).

Numbers are modelled as rationals; Python float rounding (`round`, which
rounds half to even) is modelled exactly on rationals by `pyRoundInt`.
Division by zero yields 0 in the model (the corresponding Python code paths
are only exercised with nonzero denominators in the theorems below).
Network effects are modelled by passing the fetched snapshots (order book,
open orders, position legs, trade fills) as explicit arguments, and by
returning the actions the code would issue; exchange calls are assumed to
succeed except where an explicit outcome script is part of the model.
-/

namespace SpreadCapture

inductive OrderSide where
  | buy
  | sell
deriving DecidableEq, Repr

inductive PosSide where
  | long
  | short
  | neutral
deriving DecidableEq, Repr

inductive RiskLevel where
  | NONE
  | UNKNOWN
  | CRITICAL
  | HIGH
  | MEDIUM
  | LOW
deriving DecidableEq, Repr

/-- Python `round` to an integer: round half to even. -/
def pyRoundInt (x : ℚ) : ℤ :=
  let f := ⌊x⌋
  let r := x - (f : ℚ)
  if r < 1/2 then f
  else if 1/2 < r then f + 1
  else if f % 2 = 0 then f else f + 1

/-- Python `round(x, 1)`. -/
def pyRound1 (x : ℚ) : ℚ := (pyRoundInt (x * 10) : ℚ) / 10

/-- Python `round(x, p)` for `p ≥ 1`. -/
def pyRoundTo (x : ℚ) (p : ℕ) : ℚ := (pyRoundInt (x * 10 ^ p) : ℚ) / 10 ^ p

/-- Source `trading.calc_sol_size`: round the raw amount to 1 decimal, bump it up to
the minimum order size, then if the notional is below $5 recompute from the
$5 minimum notional (rounded to 1 decimal, again bumped to the minimum size). -/
def calc_sol_size (amount_crypto current_price min_size : ℚ) : ℚ :=
  let r0 := pyRound1 amount_crypto
  let rounded_amount := if r0 < min_size then min_size else r0
  if rounded_amount * current_price < 5 then
    let required_amount := 5 / current_price
    let r1 := pyRound1 required_amount
    if r1 < min_size then min_size else r1
  else
    rounded_amount

/- ===================== QuotePlanner (order_book_analyzer) ===================== -/

structure OrderBook where
  bids : List (ℚ × ℚ)
  asks : List (ℚ × ℚ)
deriving DecidableEq, Repr

structure SpreadMetrics where
  spread_abs : ℚ
  spread_pct : ℚ
  mid_price : ℚ
  best_bid : ℚ
  best_ask : ℚ
deriving DecidableEq, Repr

/-- Source `order_book_analyzer.calculate_spread_metrics`. -/
def calculate_spread_metrics (book : OrderBook) : SpreadMetrics :=
  match book.bids, book.asks with
  | [], _ => ⟨0, 0, 0, 0, 0⟩
  | _ :: _, [] => ⟨0, 0, 0, 0, 0⟩
  | (best_bid, _) :: _, (best_ask, _) :: _ =>
    let spread_abs := best_ask - best_bid
    ⟨spread_abs, spread_abs / best_bid * 100, (best_bid + best_ask) / 2, best_bid, best_ask⟩

/-- Source `order_book_analyzer.find_optimal_price_levels`. The Python version also
emits a debug log reading `buy_prices[0]` (which would fail for
`num_orders = 0`); logging is not modelled. `symbol_precision` is only
applied when truthy (so `none` and `some 0` both skip rounding). -/
def find_optimal_price_levels (book : OrderBook) (num_orders : ℕ) (spread_pct : ℚ)
    (symbol_precision : Option ℕ) (skew : ℚ) : List ℚ × List ℚ :=
  let mid_price := (calculate_spread_metrics book).mid_price
  if mid_price = 0 then ([], [])
  else
    let spread_decimal := spread_pct / 100
    let buy_spread_mult := max (1/5) (min (1 - skew) 3)
    let sell_spread_mult := max (1/5) (min (1 + skew) 3)
    let quantize := fun (p : ℚ) =>
      match symbol_precision with
      | none => p
      | some k => if k = 0 then p else pyRoundTo p k
    let buy_prices := (List.range num_orders).map (fun i : ℕ =>
      let step := ((i : ℚ) + 1/2) / (num_orders : ℚ)
      quantize (mid_price * (1 - spread_decimal * buy_spread_mult * step)))
    let sell_prices := (List.range num_orders).map (fun i : ℕ =>
      let step := ((i : ℚ) + 1/2) / (num_orders : ℚ)
      quantize (mid_price * (1 + spread_decimal * sell_spread_mult * step)))
    (buy_prices, sell_prices)

/- ===================== OrderReconciler (trading.smart_order_management) ===================== -/

structure LiveOrder where
  id : ℕ
  side : OrderSide
  price : ℚ
deriving DecidableEq, Repr

structure TargetOrder where
  side : OrderSide
  price : ℚ
  size : ℚ
deriving DecidableEq, Repr

/-- Source `trading.should_cancel_order`: keep an order iff some same-side target is
within the relative price tolerance (in percent, relative to the live order's
price); otherwise cancel. -/
def should_cancel_order (order : LiveOrder) (target_orders : List TargetOrder)
    (price_tolerance_pct : ℚ) : Bool :=
  !(target_orders.any (fun target =>
      decide (order.side = target.side) &&
      decide (|order.price - target.price| / order.price * 100 < price_tolerance_pct)))

/-- The `exists` probe in `smart_order_management`'s placement loop: it scans
the (original) open-orders snapshot, not just the kept orders. -/
def target_has_live (target : TargetOrder) (open_orders : List LiveOrder)
    (price_tolerance_pct : ℚ) : Bool :=
  open_orders.any (fun order =>
    decide (order.side = target.side) &&
    decide (|order.price - target.price| / order.price * 100 < price_tolerance_pct))

structure ReconcileStats where
  cancelled : ℕ
  placed : ℕ
  kept : ℕ
deriving DecidableEq, Repr

/-- One reconciliation cycle's outcome: the stats dict plus the concrete
cancel/place actions issued (all exchange calls assumed to succeed). -/
structure ReconcileRun where
  stats : ReconcileStats
  cancelled_orders : List LiveOrder
  placed_orders : List TargetOrder
deriving DecidableEq, Repr

/-- Source `trading.smart_order_management` (decision logic): crowd-control guard,
selective cancellation, then gap-filling placement. -/
def smart_order_management (open_orders : List LiveOrder) (target_orders : List TargetOrder)
    (price_tolerance_pct : ℚ) : ReconcileRun :=
  if open_orders.length > target_orders.length * 2 then
    ⟨⟨open_orders.length, 0, 0⟩, open_orders, []⟩
  else
    let to_cancel := open_orders.filter (fun o => should_cancel_order o target_orders price_tolerance_pct)
    let kept := open_orders.filter (fun o => !(should_cancel_order o target_orders price_tolerance_pct))
    let to_place := target_orders.filter (fun t => !(target_has_live t open_orders price_tolerance_pct))
    ⟨⟨to_cancel.length, to_place.length, kept.length⟩, to_cancel, to_place⟩

/- ===================== trading.cancel_order retry loop ===================== -/

inductive CancelOutcome where
  | success
  | notFound
  | otherError
deriving DecidableEq, Repr

/-- The body of `trading.cancel_order`'s retry loop, with `fuel` remaining
iterations and `attempt` the current 0-based attempt index. A successful
exchange call returns the result; a "not found / does not exist" error
returns `none` immediately; any other error retries unless this was the last
attempt. The second component is the number of attempts consumed. -/
def cancel_order_attempts (script : ℕ → CancelOutcome) : ℕ → ℕ → Option Unit × ℕ
  | 0, attempt => (none, attempt)
  | fuel + 1, attempt =>
    match script attempt with
    | CancelOutcome.success => (some (), attempt + 1)
    | CancelOutcome.notFound => (none, attempt + 1)
    | CancelOutcome.otherError =>
      if fuel = 0 then (none, attempt + 1)
      else cancel_order_attempts script fuel (attempt + 1)

/-- Source `trading.cancel_order` with the exchange's per-attempt outcomes given by
`script`. -/
def cancel_order (script : ℕ → CancelOutcome) (retry_count : ℕ) : Option Unit × ℕ :=
  cancel_order_attempts script retry_count 0

/-- How callers (`cancel_all_orders`, `smart_order_management`) count
successful cancellations: `sum(1 for r in results if r is not None ...)`. -/
def count_cancel_success (results : List (Option Unit)) : ℕ :=
  (results.filter (fun r => r.isSome)).length

/- ===================== PositionManager (futures_position_manager) ===================== -/

structure PositionLeg where
  symbol : String
  contracts : ℚ
  entryPrice : ℚ
  unrealizedPnl : ℚ
  initialMargin : ℚ
deriving DecidableEq, Repr

/-- The dict returned by `get_current_position`. The long/short/gross fields
are only present (`some`) on the active-position branch, mirroring the keys
of the Python dict. -/
structure PositionInfo where
  position_size : ℚ
  position_value_usd : ℚ
  unrealized_pnl : ℚ
  entry_price : ℚ
  current_price : ℚ
  margin_used : ℚ
  liquidation_price : ℚ
  side : PosSide
  leverage : ℚ
  long_value_usd : Option ℚ
  short_value_usd : Option ℚ
  gross_exposure_usd : Option ℚ
deriving DecidableEq, Repr

/-- Accumulator of the aggregation loop in `get_current_position`. -/
structure LegAgg where
  net_contracts : ℚ
  net_pnl : ℚ
  net_margin : ℚ
  weighted_entry_price : ℚ
  long_contracts : ℚ
  short_contracts : ℚ
  long_value_usd : ℚ
  short_value_usd : ℚ
  total_contracts_abs : ℚ
  found_any : Bool
deriving DecidableEq, Repr

/-- One iteration of the aggregation loop in `get_current_position`. -/
def leg_step (symbol : String) (current_price : ℚ) (acc : LegAgg) (pos : PositionLeg) : LegAgg :=
  if pos.symbol = symbol then
    let contracts := pos.contracts
    { found_any := true
      net_contracts := acc.net_contracts + contracts
      net_pnl := acc.net_pnl + pos.unrealizedPnl
      net_margin := acc.net_margin + pos.initialMargin
      long_contracts := if contracts > 0 then acc.long_contracts + contracts else acc.long_contracts
      long_value_usd := if contracts > 0 then acc.long_value_usd + |contracts * current_price| else acc.long_value_usd
      short_contracts := if contracts < 0 then acc.short_contracts + |contracts| else acc.short_contracts
      short_value_usd := if contracts < 0 then acc.short_value_usd + |contracts * current_price| else acc.short_value_usd
      weighted_entry_price := if |contracts| > 0 then acc.weighted_entry_price + pos.entryPrice * |contracts| else acc.weighted_entry_price
      total_contracts_abs := if |contracts| > 0 then acc.total_contracts_abs + |contracts| else acc.total_contracts_abs }
  else acc

def emptyAgg : LegAgg := ⟨0, 0, 0, 0, 0, 0, 0, 0, 0, false⟩

/-- Source `FuturesPositionManager.get_current_position`, with the fetched legs and
ticker passed explicitly. Note `liquidation_price` is hard-coded to 0 in the
active branch ("Complex in hedge mode"), and the no-position branch (no
matching leg, or net contracts exactly zero) omits the long/short/gross keys. -/
def get_current_position (symbol : String) (legs : List PositionLeg) (bid ask leverage : ℚ) :
    PositionInfo :=
  let current_price := (bid + ask) / 2
  let a := legs.foldl (leg_step symbol current_price) emptyAgg
  if a.found_any = false ∨ a.net_contracts = 0 then
    ⟨0, 0, 0, 0, current_price, 0, 0, PosSide.neutral, leverage, none, none, none⟩
  else
    let position_size := a.net_contracts
    let position_value_usd := |a.net_contracts * current_price|
    let side := if position_size > 0 then PosSide.long
      else if position_size < 0 then PosSide.short
      else PosSide.neutral
    let avg_entry := if a.total_contracts_abs > 0 then a.weighted_entry_price / a.total_contracts_abs else 0
    ⟨position_size, position_value_usd, a.net_pnl, avg_entry, current_price, a.net_margin, 0,
      side, leverage, some a.long_value_usd, some a.short_value_usd,
      some (max a.long_value_usd a.short_value_usd)⟩

/-- Signed net contracts over the legs matching `symbol` (for stating the
aggregation result). -/
def net_contracts_of (symbol : String) (legs : List PositionLeg) : ℚ :=
  (legs.map (fun l => if l.symbol = symbol then l.contracts else 0)).sum

/-- Source `FuturesPositionManager.needs_rebalancing`: compares
`abs(position['position_value_usd'])` — the NET notional — against the
threshold. -/
def needs_rebalancing (symbol : String) (legs : List PositionLeg) (bid ask leverage threshold : ℚ) :
    Bool :=
  let position := get_current_position symbol legs bid ask leverage
  decide (|position.position_value_usd| > threshold)

/-- The action `FuturesPositionManager.rebalance` decides on (order
submission and its parameters), abstracting the surrounding exchange calls.
`close side amount` stands for the reduce-only market order path (for a
neutral side that path submits nothing but still returns True). -/
inductive RebalanceAction where
  | skipBelowThreshold
  | skipTooSmall
  | skipBelowMin
  | skipZeroAmount
  | close (side : PosSide) (amount : ℚ)
deriving DecidableEq, Repr

/-- Decision logic of `FuturesPositionManager.rebalance` (the skip checks and
the reduction-amount computation). -/
def rebalance (position : PositionInfo) (threshold : ℚ) (force : Bool) : RebalanceAction :=
  let position_value := |position.position_value_usd|
  let gross_exposure := position.gross_exposure_usd.getD position_value
  if force = false ∧ gross_exposure < threshold then RebalanceAction.skipBelowThreshold
  else if |position_value| < 5 then RebalanceAction.skipTooSmall
  else
    let raw_amount := |position.position_size| * (1/4)
    let approx_price := if |position.position_size| > 0 then position_value / |position.position_size| else 0
    let amount_to_close := calc_sol_size raw_amount approx_price (1/10)
    if amount_to_close < 1/10 then RebalanceAction.skipBelowMin
    else if amount_to_close ≤ 0 then RebalanceAction.skipZeroAmount
    else RebalanceAction.close position.side amount_to_close

structure RiskAssessment where
  risk_level : RiskLevel
  distance_to_liq_pct : ℚ
deriving DecidableEq, Repr

/-- Source `FuturesPositionManager.check_liquidation_risk` as a function of the
position dict it reads. -/
def check_liquidation_risk (position : PositionInfo) : RiskAssessment :=
  if position.side = PosSide.neutral then ⟨RiskLevel.NONE, 0⟩
  else
    let current_price := position.current_price
    let liq_price := position.liquidation_price
    if liq_price = 0 then ⟨RiskLevel.UNKNOWN, 0⟩
    else
      let distance_pct := |(current_price - liq_price) / current_price| * 100
      let risk_level :=
        if distance_pct < 5 then RiskLevel.CRITICAL
        else if distance_pct < 10 then RiskLevel.HIGH
        else if distance_pct < 20 then RiskLevel.MEDIUM
        else RiskLevel.LOW
      ⟨risk_level, distance_pct⟩

/- ===================== PnLLedger (trading.PnLTracker) ===================== -/

structure RawTrade where
  trade_id : String
  order_id : String
  timestamp : ℕ
  side : OrderSide
  price : ℚ
  amount : ℚ
  cost : ℚ
  fee : ℚ
deriving DecidableEq, Repr

/-- The composite dedup identity built in `calculate_pnl`
(`f"{id}{order}_{timestamp}_{side}_{amount}"`), modelled as a tuple. -/
abbrev TradeKey := String × String × ℕ × OrderSide × ℚ

def trade_key (t : RawTrade) : TradeKey :=
  (t.trade_id, t.order_id, t.timestamp, t.side, t.amount)

/-- A stored fill (`trade_data` dict) with its mutable `remaining_amount`. -/
structure TradeData where
  id : TradeKey
  timestamp : ℕ
  side : OrderSide
  price : ℚ
  amount : ℚ
  cost : ℚ
  fee : ℚ
  remaining_amount : ℚ
deriving DecidableEq, Repr

structure PnLState where
  processed_order_ids : List TradeKey
  buy_positions : List TradeData
  sell_positions : List TradeData
deriving DecidableEq, Repr

/-- The inner sell-queue walk of `_calculate_matched_pnl` for one buy:
returns (pnl realised, updated buy, updated sells). -/
def match_buy_against (buy : TradeData) : List TradeData → ℚ × TradeData × List TradeData
  | [] => (0, buy, [])
  | sell :: rest =>
    if buy.remaining_amount ≤ 0 ∨ sell.remaining_amount ≤ 0 then
      let r := match_buy_against buy rest
      (r.1, r.2.1, sell :: r.2.2)
    else
      let matched_amount := min buy.remaining_amount sell.remaining_amount
      let spread_profit := (sell.price - buy.price) * matched_amount
      let buy_fee_portion := buy.fee * (matched_amount / buy.amount)
      let sell_fee_portion := sell.fee * (matched_amount / sell.amount)
      let net_pnl := spread_profit - (buy_fee_portion + sell_fee_portion)
      let buy' := { buy with remaining_amount := buy.remaining_amount - matched_amount }
      let sell' := { sell with remaining_amount := sell.remaining_amount - matched_amount }
      let r := match_buy_against buy' rest
      (net_pnl + r.1, r.2.1, sell' :: r.2.2)

/-- The outer buy-queue walk of `_calculate_matched_pnl`. -/
def match_all : List TradeData → List TradeData → ℚ × List TradeData × List TradeData
  | [], sells => (0, [], sells)
  | buy :: rest, sells =>
    let r := match_buy_against buy sells
    let r2 := match_all rest r.2.2
    (r.1 + r2.1, r.2.1 :: r2.2.1, r2.2.2)

/-- The write-back of updated `remaining_amount`s into the original queues
(keyed by the composite id, which is unique after dedup). -/
def write_back (original updated : List TradeData) : List TradeData :=
  original.map (fun t =>
    match updated.find? (fun u => decide (u.id = t.id)) with
    | some u => { t with remaining_amount := u.remaining_amount }
    | none => t)

/-- Source `PnLTracker._calculate_matched_pnl`: FIFO-match the positive-remainder
buys against the positive-remainder sells, in insertion order, and write the
decremented remainders back into the stored queues. -/
def calculate_matched_pnl (state : PnLState) : ℚ × PnLState :=
  let buys := state.buy_positions.filter (fun b => decide (b.remaining_amount > 0))
  let sells := state.sell_positions.filter (fun s => decide (s.remaining_amount > 0))
  let r := match_all buys sells
  (r.1,
    { state with
      buy_positions := write_back state.buy_positions r.2.1
      sell_positions := write_back state.sell_positions r.2.2 })

/-- Source `PnLTracker._calculate_unmatched_value`. -/
def calculate_unmatched_value (state : PnLState) : ℚ :=
  let unmatched_buy_value := (state.buy_positions.filter (fun b => decide (b.remaining_amount > 0))).foldl
    (fun acc b => acc + b.price * b.remaining_amount) 0
  let unmatched_sell_value := (state.sell_positions.filter (fun s => decide (s.remaining_amount > 0))).foldl
    (fun acc s => acc + s.price * s.remaining_amount) 0
  unmatched_sell_value - unmatched_buy_value

/-- The dedup-and-ingest loop of `calculate_pnl`: returns the updated state
and the (volume, trade_count, fees) accumulated over the newly ingested
fills. -/
def record_trades (state : PnLState) : List RawTrade → PnLState × ℚ × ℕ × ℚ
  | [] => (state, 0, 0, 0)
  | t :: rest =>
    if trade_key t ∈ state.processed_order_ids then record_trades state rest
    else
      let td : TradeData := ⟨trade_key t, t.timestamp, t.side, t.price, t.amount, t.cost, t.fee, t.amount⟩
      let state' : PnLState :=
        { processed_order_ids := state.processed_order_ids ++ [trade_key t]
          buy_positions := if t.side = OrderSide.buy then state.buy_positions ++ [td] else state.buy_positions
          sell_positions := if t.side = OrderSide.buy then state.sell_positions else state.sell_positions ++ [td] }
      let r := record_trades state' rest
      (r.1, t.cost + r.2.1, 1 + r.2.2.1, t.fee + r.2.2.2)

structure PnLOutput where
  total_volume : ℚ
  trade_count : ℕ
  total_fees : ℚ
  matched_pnl : ℚ
  unmatched_value : ℚ
  estimated_pnl : ℚ
  realized_pnl : ℚ
  trades_processed : ℕ
deriving DecidableEq, Repr

/-- Source `PnLTracker.calculate_pnl` with the fetched trades passed explicitly. -/
def calculate_pnl (state : PnLState) (trades : List RawTrade) : PnLState × PnLOutput :=
  let r := record_trades state trades
  let state1 := r.1
  let total_volume := r.2.1
  let trade_count := r.2.2.1
  let total_fees_paid := r.2.2.2
  let m := calculate_matched_pnl state1
  let matched_pnl := m.1
  let state2 := m.2
  let unmatched_value := calculate_unmatched_value state2
  (state2,
    ⟨total_volume, trade_count, total_fees_paid, matched_pnl, unmatched_value,
      matched_pnl - total_fees_paid, matched_pnl - total_fees_paid,
      state2.processed_order_ids.length⟩)

/- ===================== Concrete fixtures for theorems and witnesses ===================== -/

/-- Hedge pair netting to +1 contract at price 100: gross exposure $1000,
net notional $100. -/
def hedgeLegs : List PositionLeg :=
  [⟨"SOL/USDT:USDT", 10, 100, 0, 0⟩, ⟨"SOL/USDT:USDT", -9, 100, 0, 0⟩]

/-- A perfectly offsetting hedge pair (net exactly zero, both legs nonzero). -/
def offsetLegs : List PositionLeg :=
  [⟨"SOL/USDT:USDT", 5, 98, 1, 3⟩, ⟨"SOL/USDT:USDT", -5, 102, -1, 3⟩]

def liveO1 : LiveOrder := ⟨1, OrderSide.buy, 99⟩
def liveO2 : LiveOrder := ⟨2, OrderSide.sell, 101⟩
def liveO3 : LiveOrder := ⟨3, OrderSide.buy, 98⟩
def targetT1 : TargetOrder := ⟨OrderSide.buy, 99, 1⟩
def targetT2 : TargetOrder := ⟨OrderSide.sell, 101, 1⟩

/-- Long 0.8 contracts at price 7 (notional $5.60): the 25% nibble (0.2)
fails the $5 minimum notional, so `calc_sol_size` recomputes `5/7` and
rounds it to 0.7 — whose notional $4.90 is still below the $5 floor. -/
def smallPos : PositionInfo :=
  ⟨4/5, 28/5, 0, 7, 7, 0, 0, PosSide.long, 1, some (28/5), some 0, some (28/5)⟩

/-- Long 1.2 contracts at price 7 (notional $8.40), used for the amended C5
witness. -/
def smallPos2 : PositionInfo :=
  ⟨6/5, 42/5, 0, 7, 7, 0, 0, PosSide.long, 1, some (42/5), some 0, some (42/5)⟩

/-- A long position 4% away from its (known) liquidation price. -/
def liqPos : PositionInfo :=
  ⟨1, 100, 0, 100, 100, 10, 96, PosSide.long, 1, some 100, some 0, some 100⟩

/-- A long position with unknown (zero) liquidation price. -/
def liqPosUnknown : PositionInfo :=
  ⟨1, 100, 0, 100, 100, 10, 0, PosSide.long, 1, some 100, some 0, some 100⟩

/-- A neutral (no-position) dict. -/
def neutralPos : PositionInfo :=
  ⟨0, 0, 0, 0, 100, 0, 0, PosSide.neutral, 1, none, none, none⟩

/-- Exchange behaviour: every cancel attempt raises "not found". -/
def notFoundScript : ℕ → CancelOutcome := fun _ => CancelOutcome.notFound

/-- Exchange behaviour: first attempt a transient error, then "not found". -/
def lateNotFoundScript : ℕ → CancelOutcome :=
  fun j => if j = 0 then CancelOutcome.otherError else CancelOutcome.notFound

def buyFill1 : TradeData := ⟨("b1", "o1", 1, OrderSide.buy, 1), 1, OrderSide.buy, 100, 1, 100, 1/10, 1⟩
def buyFill2 : TradeData := ⟨("b2", "o2", 2, OrderSide.buy, 1), 2, OrderSide.buy, 105, 1, 105, 1/10, 1⟩
def sellFill1 : TradeData := ⟨("s1", "o3", 3, OrderSide.sell, 3/2), 3, OrderSide.sell, 110, 3/2, 165, 3/20, 3/2⟩

/-- The FIFO-matching example's ledger state: buys 1.0@100 (fee 0.1) and
1.0@105 (fee 0.1); sell 1.5@110 (fee 0.15). -/
def fifoState : PnLState := ⟨[buyFill1.id, buyFill2.id, sellFill1.id], [buyFill1, buyFill2], [sellFill1]⟩

def rawBuy : RawTrade := ⟨"t1", "o1", 1, OrderSide.buy, 100, 1, 100, 1/4⟩
def rawSell : RawTrade := ⟨"t2", "o2", 2, OrderSide.sell, 110, 1, 110, 1/4⟩

/-- A fully-matched round trip fed to `calculate_pnl` from a fresh ledger. -/
def demoTrades : List RawTrade := [rawBuy, rawSell]

def emptyPnLState : PnLState := ⟨[], [], []⟩

/-- Order book fixture for the quote-planner witness: best bid 99, best ask 101. -/
def bookW : OrderBook := ⟨[(99, 1)], [(101, 2)]⟩

/- ===================== Claims ===================== -/

/-- Evaluation helper: Python `round(x, 1)` when the scaled value sits less
than `1/2` above the integer `n`. -/
lemma pyRound1_eq_of (x : ℚ) (n : ℤ) (h1 : (n : ℚ) ≤ x * 10) (h2 : x * 10 - n < 1/2) :
    pyRound1 x = (n : ℚ) / 10 := by
  have hf : ⌊x * 10⌋ = n := Int.floor_eq_iff.mpr ⟨h1, by linarith⟩
  simp only [pyRound1, pyRoundInt, hf, h2, if_true]

/-- Evaluation: `calc_sol_size` on a 0.2-contract nibble at price 7: the $5 minimum
notional path rounds `5/7` to 0.7. -/
lemma calc_sol_size_nibble_at_7 : calc_sol_size (1/5 : ℚ) 7 (1/10) = 7/10 := by
  have h1 := pyRound1_eq_of (1/5 : ℚ) 2 (by norm_num) (by norm_num)
  have h2 := pyRound1_eq_of ((5 : ℚ)/7) 7 (by norm_num) (by norm_num)
  norm_num [calc_sol_size, h1, h2]

/-- C1: the claim says `needs_rebalancing` is true iff the GROSS exposure
(larger of long and short notional) exceeds the threshold, and in particular
that it fires for a hedge pair netting to near zero with gross exposure above
threshold. The code compares the NET notional `position_value_usd` instead:
on the hedge pair long 10 / short 9 at price 100 (gross $1000, net $100,
threshold $200) it returns `false` even though gross exposure exceeds the
threshold, defeating the gross-exposure fix the code's own comments (and
`rebalance` itself) rely on. -/
theorem C1_needs_rebalancing_uses_net_not_gross :
    needs_rebalancing ("SOL/USDT:USDT") hedgeLegs 100 100 1 200 = false ∧
    (get_current_position ("SOL/USDT:USDT") hedgeLegs 100 100 1).gross_exposure_usd = some 1000 ∧
    ((200 : ℚ) < 1000) := by
  refine ⟨?_, ?_, by norm_num⟩ <;>
    norm_num [needs_rebalancing, get_current_position, hedgeLegs, leg_step, emptyAgg]

/-- C2: if there are strictly more live orders than twice the number of
target levels, reconciliation cancels all live orders and returns
immediately with zero placements and zero kept orders, placing nothing this
cycle. -/
theorem C2_crowd_control (open_orders : List LiveOrder) (target_orders : List TargetOrder)
    (tol : ℚ) (h : open_orders.length > target_orders.length * 2) :
    smart_order_management open_orders target_orders tol =
      ⟨⟨open_orders.length, 0, 0⟩, open_orders, []⟩ := by
  simp [smart_order_management, h]

theorem C2_crowd_control_witness :
    [liveO1, liveO2, liveO3].length > [targetT1].length * 2 ∧
    smart_order_management [liveO1, liveO2, liveO3] [targetT1] (1/10) =
      ⟨⟨[liveO1, liveO2, liveO3].length, 0, 0⟩, [liveO1, liveO2, liveO3], []⟩ :=
  ⟨by decide, C2_crowd_control _ _ _ (by decide)⟩

lemma should_cancel_order_eq_false {o : LiveOrder} {ts : List TargetOrder} {tol : ℚ}
    (h : ∃ t ∈ ts, o.side = t.side ∧ |o.price - t.price| / o.price * 100 < tol) :
    should_cancel_order o ts tol = false := by
  simp only [should_cancel_order, Bool.not_eq_false', List.any_eq_true, Bool.and_eq_true,
    decide_eq_true_eq]
  obtain ⟨t, ht, hside, hprice⟩ := h
  exact ⟨t, ht, hside, hprice⟩

lemma target_has_live_eq_true {t : TargetOrder} {os : List LiveOrder} {tol : ℚ}
    (h : ∃ o ∈ os, o.side = t.side ∧ |o.price - t.price| / o.price * 100 < tol) :
    target_has_live t os tol = true := by
  simp only [target_has_live, List.any_eq_true, Bool.and_eq_true, decide_eq_true_eq]
  obtain ⟨o, ho, hside, hprice⟩ := h
  exact ⟨o, ho, hside, hprice⟩

/-- C3: reconciliation is idempotent. If every live order has a same-side
target within the relative price tolerance, every target level has a
same-side live order within tolerance, and the live-order count is within
the crowd-control bound, then the reconcile call cancels zero orders and
places zero orders. -/
theorem C3_reconcile_idempotent (open_orders : List LiveOrder) (target_orders : List TargetOrder)
    (tol : ℚ)
    (h_live : ∀ o ∈ open_orders, ∃ t ∈ target_orders,
      o.side = t.side ∧ |o.price - t.price| / o.price * 100 < tol)
    (h_target : ∀ t ∈ target_orders, ∃ o ∈ open_orders,
      o.side = t.side ∧ |o.price - t.price| / o.price * 100 < tol)
    (h_size : ¬ open_orders.length > target_orders.length * 2) :
    (smart_order_management open_orders target_orders tol).stats.cancelled = 0 ∧
    (smart_order_management open_orders target_orders tol).stats.placed = 0 := by
  simp only [smart_order_management, if_neg h_size]
  constructor
  · rw [List.length_eq_zero, List.filter_eq_nil_iff]
    intro o ho
    rw [Bool.not_eq_true]
    exact should_cancel_order_eq_false (h_live o ho)
  · rw [List.length_eq_zero, List.filter_eq_nil_iff]
    intro t ht
    rw [Bool.not_eq_true, Bool.not_eq_false']
    exact target_has_live_eq_true (h_target t ht)

theorem C3_reconcile_idempotent_witness :
    (smart_order_management [liveO1, liveO2] [targetT1, targetT2] (1/10)).stats.cancelled = 0 ∧
    (smart_order_management [liveO1, liveO2] [targetT1, targetT2] (1/10)).stats.placed = 0 :=
  C3_reconcile_idempotent [liveO1, liveO2] [targetT1, targetT2] (1/10)
    (fun o ho => by
      fin_cases ho
      · exact ⟨targetT1, by simp, rfl, by norm_num [liveO1, targetT1]⟩
      · exact ⟨targetT2, by simp, rfl, by norm_num [liveO2, targetT2]⟩)
    (fun t ht => by
      fin_cases ht
      · exact ⟨liveO1, by simp, rfl, by norm_num [liveO1, targetT1]⟩
      · exact ⟨liveO2, by simp, rfl, by norm_num [liveO2, targetT2]⟩)
    (by norm_num)

/-- C4: FIFO matching on buys 1.0@100 (fee 0.1), 1.0@105 (fee 0.1) and sell
1.5@110 (fee 0.15) realises `(110−100)×1.0 + (110−105)×0.5` minus each
side's proportional fee share, and leaves 0.5@105 of the second buy (and
nothing of the sell) unmatched. -/
theorem C4_fifo_matching_example :
    (calculate_matched_pnl fifoState).1 =
      (110 - 100) * 1 + (110 - 105) * (1/2)
        - ((1/10) * (1/1) + (3/20) * (1 / (3/2)))
        - ((1/10) * ((1/2) / 1) + (3/20) * ((1/2) / (3/2))) ∧
    (calculate_matched_pnl fifoState).2.buy_positions =
      [{ buyFill1 with remaining_amount := 0 }, { buyFill2 with remaining_amount := 1/2 }] ∧
    (calculate_matched_pnl fifoState).2.sell_positions =
      [{ sellFill1 with remaining_amount := 0 }] := by
  refine ⟨?_, ?_, ?_⟩ <;>
    norm_num [calculate_matched_pnl, fifoState, match_all, match_buy_against, write_back,
      buyFill1, buyFill2, sellFill1]

/-- C5 counterexample: on a long position of 0.8 contracts at price 7
(notional $5.60), the 25% nibble is 0.2; `calc_sol_size` bumps it for the $5
minimum notional to `round(5/7, 1) = 0.7`, whose notional $4.90 is still
below the $5 floor — yet `rebalance` submits the close order instead of
skipping with a no-op as the claim states. -/
theorem C5_counterexample :
    rebalance smallPos 200 true = RebalanceAction.close PosSide.long (7/10) ∧
    (7/10) * 7 < 5 := by
  refine ⟨?_, by norm_num⟩
  have ha : |(28/5 : ℚ)| = 28/5 := by norm_num
  have hb : |(4/5 : ℚ)| = 4/5 := by norm_num
  norm_num [rebalance, smallPos, ha, hb, calc_sol_size_nibble_at_7]

/-- Quantizer floor: `calc_sol_size` never returns below the minimum order size: amounts
below a floor are bumped UP, not rejected. -/
lemma calc_sol_size_ge_min (a p m : ℚ) : m ≤ calc_sol_size a p m := by
  simp only [calc_sol_size]
  split_ifs <;> linarith

/-- C5 amended: `rebalance` computes the reduction as 25% of the absolute
net contracts and quantizes it with `calc_sol_size`; but the quantizer bumps
amounts below the minimum size or minimum notional UP toward the floors
(never returning below the 0.1 minimum size), so the below-floor skip checks
in `rebalance` can never fire, and for any long position that passes the
threshold and $5-notional gates a close order is always submitted — even
when the quantized amount's notional still falls below the $5 minimum. -/
theorem C5_amended_quantizer_bumps_up (a p : ℚ) (pos : PositionInfo) (thr : ℚ)
    (hside : pos.side = PosSide.long) (hval : 5 ≤ |pos.position_value_usd|) :
    1/10 ≤ calc_sol_size a p (1/10) ∧
    rebalance pos thr true =
      RebalanceAction.close PosSide.long
        (calc_sol_size (|pos.position_size| * (1/4))
          (if |pos.position_size| > 0 then |pos.position_value_usd| / |pos.position_size| else 0)
          (1/10)) := by
  refine ⟨calc_sol_size_ge_min a p (1/10), ?_⟩
  have hge := calc_sol_size_ge_min (|pos.position_size| * (1/4))
    (if |pos.position_size| > 0 then |pos.position_value_usd| / |pos.position_size| else 0) (1/10)
  have hc1 : ¬(true = false ∧ pos.gross_exposure_usd.getD |pos.position_value_usd| < thr) := by
    rintro ⟨h, -⟩
    simp at h
  have hc2 : ¬(|(|pos.position_value_usd|)| < 5) := by
    rw [abs_abs]
    exact not_lt.mpr hval
  simp only [rebalance, hside]
  rw [if_neg hc1, if_neg hc2, if_neg (not_lt.mpr hge),
    if_neg (not_le.mpr (lt_of_lt_of_le (by norm_num) hge))]

theorem C5_amended_witness :
    (1/10 : ℚ) ≤ calc_sol_size (3/10) 7 (1/10) ∧
    rebalance smallPos2 200 true =
      RebalanceAction.close PosSide.long
        (calc_sol_size (|smallPos2.position_size| * (1/4))
          (if |smallPos2.position_size| > 0 then
            |smallPos2.position_value_usd| / |smallPos2.position_size| else 0)
          (1/10)) :=
  C5_amended_quantizer_bumps_up (3/10) 7 smallPos2 200 rfl
    (by rw [show smallPos2.position_value_usd = (42 : ℚ)/5 from rfl, abs_of_pos (by norm_num)]
        norm_num)

/-- C6 counterexample: a "not found" error on the first cancel attempt makes
`cancel_order` return `None` after one attempt; the callers' success count
(`1 for r in results if r is not None`) over that result is 0, not 1, so the
cancel is NOT counted among successful cancellations. -/
theorem C6_counterexample :
    cancel_order notFoundScript 2 = (none, 1) ∧
    count_cancel_success [(cancel_order notFoundScript 2).1] = 0 ∧
    ¬ count_cancel_success [(cancel_order notFoundScript 2).1] = 1 :=
  ⟨rfl, rfl, by simp [cancel_order, cancel_order_attempts, notFoundScript, count_cancel_success]⟩

/-- The retry loop returns `(none, k + 1)` when attempts `0..k-1` raise
transient errors and attempt `k` raises "not found": the loop stops at
attempt `k` with no further retry and the failure sentinel `None`. -/
lemma cancel_order_attempts_not_found (script : ℕ → CancelOutcome) :
    ∀ (k fuel attempt : ℕ), k < fuel →
      (∀ j, j < k → script (attempt + j) = CancelOutcome.otherError) →
      script (attempt + k) = CancelOutcome.notFound →
      cancel_order_attempts script fuel attempt = (none, attempt + k + 1) := by
  intro k
  induction k with
  | zero =>
    intro fuel attempt hk hb hnf
    cases fuel with
    | zero => omega
    | succ fuel =>
      rw [Nat.add_zero] at hnf
      simp only [cancel_order_attempts, hnf]
  | succ k ih =>
    intro fuel attempt hk hb hnf
    cases fuel with
    | zero => omega
    | succ fuel =>
      have h0 : script attempt = CancelOutcome.otherError := by
        have h := hb 0 (Nat.succ_pos k)
        rwa [Nat.add_zero] at h
      have hfuel : k < fuel := by omega
      have hb' : ∀ j, j < k → script (attempt + 1 + j) = CancelOutcome.otherError := by
        intro j hj
        have h := hb (j + 1) (by omega)
        rwa [show attempt + (j + 1) = attempt + 1 + j by omega] at h
      have hnf' : script (attempt + 1 + k) = CancelOutcome.notFound := by
        rwa [show attempt + (k + 1) = attempt + 1 + k by omega] at hnf
      have hrec := ih fuel (attempt + 1) hfuel hb' hnf'
      simp only [cancel_order_attempts, h0, if_neg (by omega : ¬ fuel = 0), hrec]
      congr 1
      omega

/-- C6 amended: a "not found / does not exist" error during cancellation
(after any number of transient errors) stops the retry loop immediately at
that attempt, but `cancel_order` returns `None` — the failure sentinel — so
the callers' success count does NOT include it. -/
theorem C6_amended_not_found_terminal (script : ℕ → CancelOutcome) (retry_count k : ℕ)
    (hk : k < retry_count)
    (hbefore : ∀ j, j < k → script j = CancelOutcome.otherError)
    (hnf : script k = CancelOutcome.notFound) :
    cancel_order script retry_count = (none, k + 1) ∧
    count_cancel_success [(cancel_order script retry_count).1] = 0 := by
  have h := cancel_order_attempts_not_found script k retry_count 0 hk
    (fun j hj => by simpa using hbefore j hj) (by simpa using hnf)
  rw [cancel_order] at *
  refine ⟨by rw [h]; congr 1; omega, by rw [h]; rfl⟩

theorem C6_amended_witness :
    cancel_order lateNotFoundScript 3 = (none, 2) ∧
    count_cancel_success [(cancel_order lateNotFoundScript 3).1] = 0 :=
  C6_amended_not_found_terminal lateNotFoundScript 3 1 (by omega)
    (fun j hj => by
      have hj0 : j = 0 := by omega
      subst hj0
      rfl)
    rfl

/-- C7: `check_liquidation_risk` returns NONE for a neutral side, UNKNOWN
when the liquidation price is 0, and otherwise reports
`distancePct = |currentPrice − liqPrice| / currentPrice × 100` classified as
CRITICAL below 5, HIGH below 10, MEDIUM below 20, else LOW; at
`currentPrice = 100, liqPrice = 96` the distance is 4 and the level
CRITICAL. -/
theorem C7_check_liquidation_risk (position : PositionInfo) :
    (position.side = PosSide.neutral →
      check_liquidation_risk position = ⟨RiskLevel.NONE, 0⟩) ∧
    (position.side ≠ PosSide.neutral → position.liquidation_price = 0 →
      check_liquidation_risk position = ⟨RiskLevel.UNKNOWN, 0⟩) ∧
    (position.side ≠ PosSide.neutral → position.liquidation_price ≠ 0 →
      0 < position.current_price →
      (check_liquidation_risk position).distance_to_liq_pct =
        |position.current_price - position.liquidation_price| / position.current_price * 100 ∧
      (check_liquidation_risk position).risk_level =
        (if (check_liquidation_risk position).distance_to_liq_pct < 5 then RiskLevel.CRITICAL
         else if (check_liquidation_risk position).distance_to_liq_pct < 10 then RiskLevel.HIGH
         else if (check_liquidation_risk position).distance_to_liq_pct < 20 then RiskLevel.MEDIUM
         else RiskLevel.LOW)) ∧
    check_liquidation_risk liqPos = ⟨RiskLevel.CRITICAL, 4⟩ := by
  refine ⟨?_, ?_, ?_, ?_⟩
  · intro h
    simp [check_liquidation_risk, h]
  · intro h h0
    simp [check_liquidation_risk, h, h0]
  · intro h h0 hpos
    have habs : |(position.current_price - position.liquidation_price) / position.current_price| =
        |position.current_price - position.liquidation_price| / position.current_price := by
      rw [abs_div, abs_of_pos hpos]
    constructor
    · simp [check_liquidation_risk, h, h0, habs]
    · simp [check_liquidation_risk, h, h0, habs]
  · have hside : (PosSide.long = PosSide.neutral) = False := by simp
    have habs : |((1 : ℚ)/25)| = 1/25 := by norm_num
    norm_num [check_liquidation_risk, liqPos, hside, habs]

theorem C7_check_liquidation_risk_witness :
    check_liquidation_risk neutralPos = ⟨RiskLevel.NONE, 0⟩ ∧
    check_liquidation_risk liqPosUnknown = ⟨RiskLevel.UNKNOWN, 0⟩ ∧
    (check_liquidation_risk liqPos).distance_to_liq_pct =
      |liqPos.current_price - liqPos.liquidation_price| / liqPos.current_price * 100 :=
  ⟨(C7_check_liquidation_risk neutralPos).1 rfl,
   (C7_check_liquidation_risk liqPosUnknown).2.1 (by simp [liqPosUnknown]) rfl,
   ((C7_check_liquidation_risk liqPos).2.2.1 (by simp [liqPos])
     (by norm_num [liqPos]) (by norm_num [liqPos])).1⟩

/-- The aggregation loop's net-contracts component is the signed sum of the
matching legs' contracts. -/
lemma foldl_leg_step_net (symbol : String) (cp : ℚ) :
    ∀ (legs : List PositionLeg) (a : LegAgg),
      (legs.foldl (leg_step symbol cp) a).net_contracts =
        a.net_contracts + net_contracts_of symbol legs := by
  intro legs
  induction legs with
  | nil =>
    intro a
    simp [net_contracts_of]
  | cons l rest ih =>
    intro a
    rw [List.foldl_cons, ih]
    by_cases h : l.symbol = symbol
    · simp only [leg_step, if_pos h, net_contracts_of, List.map_cons, List.sum_cons]
      ring
    · simp only [leg_step, if_neg h, net_contracts_of, List.map_cons, List.sum_cons]
      simp [net_contracts_of]

/-- C10: on a positions snapshot whose signed matching contracts sum to
exactly zero while individual legs are nonzero, `get_current_position`
returns the no-position dict — size 0, side neutral, entry 0, and no
long/short/gross keys — so a downstream `get('gross_exposure_usd', netValue)`
read falls back to 0. -/
theorem C10_offsetting_hedge_pair (symbol : String) (legs : List PositionLeg) (bid ask lev : ℚ)
    (hnet : net_contracts_of symbol legs = 0)
    (_hnonzero : ∃ l ∈ legs, l.symbol = symbol ∧ l.contracts ≠ 0) :
    get_current_position symbol legs bid ask lev =
      ⟨0, 0, 0, 0, (bid + ask) / 2, 0, 0, PosSide.neutral, lev, none, none, none⟩ ∧
    (get_current_position symbol legs bid ask lev).gross_exposure_usd.getD
      |(get_current_position symbol legs bid ask lev).position_value_usd| = 0 := by
  have hz : (legs.foldl (leg_step symbol ((bid + ask) / 2)) emptyAgg).net_contracts = 0 := by
    rw [foldl_leg_step_net, hnet]
    simp [emptyAgg]
  have h1 : get_current_position symbol legs bid ask lev =
      ⟨0, 0, 0, 0, (bid + ask) / 2, 0, 0, PosSide.neutral, lev, none, none, none⟩ := by
    simp only [get_current_position]
    rw [if_pos (Or.inr hz)]
  refine ⟨h1, ?_⟩
  rw [h1]
  simp

theorem C10_offsetting_hedge_pair_witness :
    get_current_position ("SOL/USDT:USDT") offsetLegs 100 100 1 =
      ⟨0, 0, 0, 0, (100 + 100) / 2, 0, 0, PosSide.neutral, 1, none, none, none⟩ ∧
    (get_current_position ("SOL/USDT:USDT") offsetLegs 100 100 1).gross_exposure_usd.getD
      |(get_current_position ("SOL/USDT:USDT") offsetLegs 100 100 1).position_value_usd| = 0 :=
  C10_offsetting_hedge_pair ("SOL/USDT:USDT") offsetLegs 100 100 1
    (by norm_num [net_contracts_of, offsetLegs])
    ⟨⟨"SOL/USDT:USDT", 5, 98, 1, 3⟩, by simp [offsetLegs], rfl, by norm_num⟩

lemma getD_map_range (f : ℕ → ℚ) (n i : ℕ) (hi : i < n) :
    ((List.range n).map f).getD i 0 = f i := by
  have h : i < ((List.range n).map f).length := by simpa using hi
  rw [List.getD_eq_getElem _ _ h]
  simp

/-- C8: for a book with positive best bid and ask (so a positive mid), a
positive spread and `numOrders ≥ 1`, `find_optimal_price_levels` (without
venue rounding) returns `numOrders` prices per side, each equal to
`mid × (1 ∓ spreadDecimal × sideMultiplier × (i+0.5)/numOrders)`; buys sit
strictly below mid and sells strictly above, diverging monotonically as the
level index grows; and whenever the mid price is zero it returns empty
arrays. -/
theorem C8_find_optimal_price_levels (bb sb ba sa : ℚ) (tb ta : List (ℚ × ℚ))
    (n : ℕ) (spread_pct skew : ℚ)
    (hbb : 0 < bb) (hba : 0 < ba) (hsp : 0 < spread_pct) (hn : 1 ≤ n) :
    ((find_optimal_price_levels ⟨(bb, sb) :: tb, (ba, sa) :: ta⟩ n spread_pct none skew).1.length = n ∧
     (find_optimal_price_levels ⟨(bb, sb) :: tb, (ba, sa) :: ta⟩ n spread_pct none skew).2.length = n) ∧
    (∀ i, i < n →
      (find_optimal_price_levels ⟨(bb, sb) :: tb, (ba, sa) :: ta⟩ n spread_pct none skew).1.getD i 0 =
        (bb + ba) / 2 *
          (1 - spread_pct / 100 * max (1/5) (min (1 - skew) 3) * (((i : ℚ) + 1/2) / (n : ℚ))) ∧
      (find_optimal_price_levels ⟨(bb, sb) :: tb, (ba, sa) :: ta⟩ n spread_pct none skew).2.getD i 0 =
        (bb + ba) / 2 *
          (1 + spread_pct / 100 * max (1/5) (min (1 + skew) 3) * (((i : ℚ) + 1/2) / (n : ℚ)))) ∧
    (∀ i, i < n →
      (find_optimal_price_levels ⟨(bb, sb) :: tb, (ba, sa) :: ta⟩ n spread_pct none skew).1.getD i 0 <
        (bb + ba) / 2 ∧
      (bb + ba) / 2 <
        (find_optimal_price_levels ⟨(bb, sb) :: tb, (ba, sa) :: ta⟩ n spread_pct none skew).2.getD i 0) ∧
    (∀ i j, i < j → j < n →
      (find_optimal_price_levels ⟨(bb, sb) :: tb, (ba, sa) :: ta⟩ n spread_pct none skew).1.getD j 0 <
        (find_optimal_price_levels ⟨(bb, sb) :: tb, (ba, sa) :: ta⟩ n spread_pct none skew).1.getD i 0 ∧
      (find_optimal_price_levels ⟨(bb, sb) :: tb, (ba, sa) :: ta⟩ n spread_pct none skew).2.getD i 0 <
        (find_optimal_price_levels ⟨(bb, sb) :: tb, (ba, sa) :: ta⟩ n spread_pct none skew).2.getD j 0) ∧
    (∀ (book : OrderBook) (m : ℕ) (sp sk : ℚ) (prec : Option ℕ),
      (calculate_spread_metrics book).mid_price = 0 →
      find_optimal_price_levels book m sp prec sk = ([], [])) := by
  have hmidpos : 0 < (bb + ba) / 2 := by positivity
  have hunfold : find_optimal_price_levels ⟨(bb, sb) :: tb, (ba, sa) :: ta⟩ n spread_pct none skew =
      ((List.range n).map (fun i : ℕ => (bb + ba) / 2 *
          (1 - spread_pct / 100 * max (1/5) (min (1 - skew) 3) * (((i : ℚ) + 1/2) / (n : ℚ)))),
       (List.range n).map (fun i : ℕ => (bb + ba) / 2 *
          (1 + spread_pct / 100 * max (1/5) (min (1 + skew) 3) * (((i : ℚ) + 1/2) / (n : ℚ))))) := by
    simp only [find_optimal_price_levels, calculate_spread_metrics]
    rw [if_neg (ne_of_gt hmidpos)]
  have hn0 : (0 : ℚ) < (n : ℚ) := by
    have : 0 < n := by omega
    exact_mod_cast this
  have hcb : 0 < spread_pct / 100 * max (1/5) (min (1 - skew) 3) :=
    mul_pos (by positivity) (lt_of_lt_of_le (by norm_num) (le_max_left _ _))
  have hcs : 0 < spread_pct / 100 * max (1/5) (min (1 + skew) 3) :=
    mul_pos (by positivity) (lt_of_lt_of_le (by norm_num) (le_max_left _ _))
  have hstep : ∀ i : ℕ, 0 < ((i : ℚ) + 1/2) / (n : ℚ) := fun i => by positivity
  have hmono_step : ∀ i j : ℕ, i < j → ((i : ℚ) + 1/2) / (n : ℚ) < ((j : ℚ) + 1/2) / (n : ℚ) := by
    intro i j hij
    have hcast : (i : ℚ) < (j : ℚ) := by exact_mod_cast hij
    gcongr
  have hbuyform : ∀ i, i < n →
      (find_optimal_price_levels ⟨(bb, sb) :: tb, (ba, sa) :: ta⟩ n spread_pct none skew).1.getD i 0 =
        (bb + ba) / 2 *
          (1 - spread_pct / 100 * max (1/5) (min (1 - skew) 3) * (((i : ℚ) + 1/2) / (n : ℚ))) := by
    intro i hi
    rw [hunfold]
    exact getD_map_range _ n i hi
  have hsellform : ∀ i, i < n →
      (find_optimal_price_levels ⟨(bb, sb) :: tb, (ba, sa) :: ta⟩ n spread_pct none skew).2.getD i 0 =
        (bb + ba) / 2 *
          (1 + spread_pct / 100 * max (1/5) (min (1 + skew) 3) * (((i : ℚ) + 1/2) / (n : ℚ))) := by
    intro i hi
    rw [hunfold]
    exact getD_map_range _ n i hi
  refine ⟨⟨by rw [hunfold]; simp, by rw [hunfold]; simp⟩,
    fun i hi => ⟨hbuyform i hi, hsellform i hi⟩, fun i hi => ⟨?_, ?_⟩,
    fun i j hij hj => ⟨?_, ?_⟩, fun book m sp sk prec h => by
      simp [find_optimal_price_levels, h]⟩
  · rw [hbuyform i hi]
    nlinarith [mul_pos hmidpos (mul_pos hcb (hstep i))]
  · rw [hsellform i hi]
    nlinarith [mul_pos hmidpos (mul_pos hcs (hstep i))]
  · rw [hbuyform j hj, hbuyform i (lt_trans hij hj)]
    have h1 := mul_lt_mul_of_pos_left (hmono_step i j hij) hcb
    nlinarith [mul_lt_mul_of_pos_left h1 hmidpos]
  · rw [hsellform j hj, hsellform i (lt_trans hij hj)]
    have h1 := mul_lt_mul_of_pos_left (hmono_step i j hij) hcs
    nlinarith [mul_lt_mul_of_pos_left h1 hmidpos]

theorem C8_find_optimal_price_levels_witness :
    (find_optimal_price_levels bookW 2 1 none 0).1.length = 2 ∧
    (find_optimal_price_levels bookW 2 1 none 0).1.getD 0 0 < (99 + 101) / 2 ∧
    ((99 : ℚ) + 101) / 2 < (find_optimal_price_levels bookW 2 1 none 0).2.getD 0 0 ∧
    (find_optimal_price_levels bookW 2 1 none 0).1.getD 1 0 <
      (find_optimal_price_levels bookW 2 1 none 0).1.getD 0 0 ∧
    (find_optimal_price_levels bookW 2 1 none 0).2.getD 0 0 <
      (find_optimal_price_levels bookW 2 1 none 0).2.getD 1 0 := by
  have h := C8_find_optimal_price_levels 99 1 101 2 [] [] 2 1 0
    (by norm_num) (by norm_num) (by norm_num) (by norm_num)
  exact ⟨by simpa [bookW] using h.1.1,
    by simpa [bookW] using (h.2.2.1 0 (by norm_num)).1,
    by simpa [bookW] using (h.2.2.1 0 (by norm_num)).2,
    by simpa [bookW] using (h.2.2.2.1 0 1 (by norm_num) (by norm_num)).1,
    by simpa [bookW] using (h.2.2.2.1 0 1 (by norm_num) (by norm_num)).2⟩

/-- C9: the PnL output always satisfies
`estimated_pnl = matched_pnl − total_fees`, while `matched_pnl` already
subtracts each side's proportional fee share per match — so on a fully
matched round trip (buy 1@100 fee 0.25, sell 1@110 fee 0.25) the matched PnL
is the spread minus the fees once, and `estimated_pnl` is the spread minus
the fees twice. -/
theorem C9_estimated_pnl_subtracts_fees_twice (state : PnLState) (trades : List RawTrade) :
    (calculate_pnl state trades).2.estimated_pnl =
      (calculate_pnl state trades).2.matched_pnl - (calculate_pnl state trades).2.total_fees ∧
    (calculate_pnl emptyPnLState demoTrades).2.matched_pnl =
      (110 - 100) * 1 - (calculate_pnl emptyPnLState demoTrades).2.total_fees ∧
    (calculate_pnl emptyPnLState demoTrades).2.estimated_pnl =
      (110 - 100) * 1 - 2 * (calculate_pnl emptyPnLState demoTrades).2.total_fees := by
  refine ⟨rfl, ?_, ?_⟩ <;>
    norm_num [calculate_pnl, record_trades, calculate_matched_pnl, calculate_unmatched_value,
      match_all, match_buy_against, write_back, emptyPnLState, demoTrades, rawBuy, rawSell,
      trade_key]

end SpreadCapture
